import Mathlib

/-!
Verification development for `econ-cpi-rates.py`, a script that resolves a
target (year, month) period, fetches a CPI series for that year, extracts the
month's value, performs a check-then-insert into a SQL table, and reports the
twelve most recent rows.

Modelling conventions:
* Years and months are `Int` (Python integers; the CLI arguments are parsed
  numerals).  The `timestring.Date('M/1/Y')` comparison used for the
  future-date check coincides with lexicographic chronological order on
  (year, month) for calendar months 1..12, and is embedded as that order.
* The SQL table `ECON_CPI_RATES` is a `List CpiObservation` (a bag of rows:
  the original schema has no uniqueness constraint); `INSERT` appends a row.
* Rates are `Rat`; no arithmetic is ever performed on them, they are only
  stored and reported, so the choice of numeric carrier is inessential.
* `SELECT TOP(12) ... ORDER BY CPI_YR DESC, CPI_MTH DESC` is embedded as
  sorting the rows by the descending (year, month) order and taking 12.
* Every `sys.exit` in the script, including the final one on the success
  path, uses exit code 1; `runMain` records the code of the exit taken.
-/

namespace EconCpiRates

/-- A (year, month) observation period; source: the `(blsYear, blsMonth)`
pair and the `(CPI_YR, CPI_MTH)` columns. -/
structure ObservationPeriod where
  year : Int
  month : Int
deriving DecidableEq, Repr

/-- Strict chronological order on periods: lexicographic on (year, month). -/
def ObservationPeriod.before (p q : ObservationPeriod) : Prop :=
  p.year < q.year ∨ (p.year = q.year ∧ p.month < q.month)

instance (p q : ObservationPeriod) : Decidable (ObservationPeriod.before p q) :=
  inferInstanceAs (Decidable (p.year < q.year ∨ (p.year = q.year ∧ p.month < q.month)))

/-- One persisted row of `BaseData.gis.ECON_CPI_RATES`. -/
structure CpiObservation where
  period : ObservationPeriod
  rate : Rat
deriving DecidableEq, Repr

/-- The `SELECT ... WHERE CPI_YR = y AND CPI_MTH = m` existence query
(source line 137): all rows of the store matching the period exactly. -/
def findByPeriod (store : List CpiObservation) (p : ObservationPeriod) :
    List CpiObservation :=
  store.filter (fun row => decide (row.period = p))

/-- Uniqueness invariant of the store: at most one row per period. -/
def atMostOnePerPeriod (store : List CpiObservation) : Prop :=
  ∀ p, (findByPeriod store p).length ≤ 1

/-- Outcome of the ingestion guard. -/
inductive InsertOutcome where
  | AlreadyPresent
  | Inserted
deriving DecidableEq, Repr

/-- The check-then-insert block (source lines 140-155): run the existence
query; if any row matches, report `AlreadyPresent` and leave the store
alone; otherwise append the single new row and report `Inserted`. -/
def ensureStored (store : List CpiObservation) (obs : CpiObservation) :
    InsertOutcome × List CpiObservation :=
  if (findByPeriod store obs.period).length > 0 then
    (InsertOutcome.AlreadyPresent, store)
  else
    (InsertOutcome.Inserted, store ++ [obs])

/-- The wall clock `datetime.datetime.now()`: only its year and month are
read by the script. -/
structure Now where
  year : Int
  month : Int
deriving DecidableEq, Repr

/-- `lastMonth = now.month - 1 if now.month > 1 else 12` (source line 61). -/
def lastMonth (now : Now) : Int :=
  if now.month > 1 then now.month - 1 else 12

/-- `lastMonthYear = now.year if now.month > 1 else now.year - 1`
(source line 62). -/
def lastMonthYear (now : Now) : Int :=
  if now.month > 1 then now.year else now.year - 1

/-- The default target period: the previous calendar month. -/
def defaultPeriod (now : Now) : ObservationPeriod :=
  ⟨lastMonthYear now, lastMonth now⟩

/-- Result of period resolution: either a period (with a flag recording
whether the CLI override was taken) or the future-date rejection. -/
inductive ResolveResult where
  | ok (period : ObservationPeriod) (usedOverride : Bool)
  | futureDateError
deriving DecidableEq, Repr

/-- Period resolution (source lines 60-82).  `args` is `sys.argv[1:]` with
the numerals parsed; the source's `len(sys.argv) > 2` test is: at least two
positional arguments.  The override is `sys.argv[1], sys.argv[2]`, any
further arguments are ignored.  The `timestring` comparison
`Date('M/1/Y') > Date('lastM/1/lastMY')` is chronological (year, month)
order for calendar months. -/
def resolvePeriod (args : List Int) (now : Now) : ResolveResult :=
  match args with
  | overrideYear :: overrideMonth :: _ =>
    if (defaultPeriod now).before ⟨overrideYear, overrideMonth⟩ then
      ResolveResult.futureDateError
    else
      ResolveResult.ok ⟨overrideYear, overrideMonth⟩ true
  | _ => ResolveResult.ok (defaultPeriod now) false

/-- The fetched series: the year's time-indexed values, as (period, rate)
pairs.  `pandas` `.loc[key].item()` on the frame is keyed lookup. -/
def lookupPeriod (series : List (ObservationPeriod × Rat))
    (p : ObservationPeriod) : Option Rat :=
  (series.find? (fun entry => decide (entry.1 = p))).map Prod.snd

/-- Result of the month filter (source lines 115-121): the `KeyError`
handler exits when the month is absent. -/
inductive ExtractResult where
  | observationNotFound
  | value (rate : Rat)
deriving DecidableEq, Repr

/-- `inf.loc[str(blsYear)+'-'+str(blsMonth),:].item()` guarded by the
`KeyError` handler. -/
def extract (series : List (ObservationPeriod × Rat)) (p : ObservationPeriod) :
    ExtractResult :=
  match lookupPeriod series p with
  | none => ExtractResult.observationNotFound
  | some v => ExtractResult.value v

/-- The `ORDER BY CPI_YR DESC, CPI_MTH DESC` sort order: `a` precedes `b`
when `a`'s period is chronologically no earlier than `b`'s. -/
def rowGe (a b : CpiObservation) : Prop :=
  b.period.year < a.period.year ∨
    (b.period.year = a.period.year ∧ b.period.month ≤ a.period.month)

instance : DecidableRel rowGe := fun a b =>
  inferInstanceAs (Decidable (b.period.year < a.period.year ∨
    (b.period.year = a.period.year ∧ b.period.month ≤ a.period.month)))

instance : IsTotal CpiObservation rowGe :=
  ⟨fun a b => by simp only [rowGe]; omega⟩

instance : IsTrans CpiObservation rowGe :=
  ⟨fun a b c hab hbc => by simp only [rowGe] at hab hbc ⊢; omega⟩

/-- The history query `SELECT TOP(12) ... ORDER BY CPI_YR DESC, CPI_MTH DESC`
(source line 160): the store's rows in descending chronological order,
truncated to `limit`. -/
def recent (store : List CpiObservation) (limit : Nat) : List CpiObservation :=
  (List.insertionSort rowGe store).take limit

/-- Terminal outcome of one run of the script. -/
inductive RunOutcome where
  | futureDate
  | missingApiKey
  | observationNotFound
  | success (ingestion : InsertOutcome)
deriving DecidableEq, Repr

/-- What a run leaves behind: which exit was taken and with which code,
whether the upstream fetch was performed, and the final store. -/
structure RunResult where
  outcome : RunOutcome
  exitCode : Int
  fetchPerformed : Bool
  finalStore : List CpiObservation
deriving DecidableEq, Repr

/-- The script's main flow, in source order: resolve the period (exiting 1
on a future override, before any fetch or store access), require the API
key (source lines 93-99), fetch the target year's series, extract the
month (exiting 1 if absent), run the ingestion guard, report history, and
finally `sys.exit(1)` (source line 169) even on success. -/
def runMain (args : List Int) (now : Now) (apiKeyPresent : Bool)
    (fetch : Int → List (ObservationPeriod × Rat))
    (store : List CpiObservation) : RunResult :=
  match resolvePeriod args now with
  | ResolveResult.futureDateError =>
    ⟨RunOutcome.futureDate, 1, false, store⟩
  | ResolveResult.ok p _ =>
    if apiKeyPresent then
      match lookupPeriod (fetch p.year) p with
      | none => ⟨RunOutcome.observationNotFound, 1, true, store⟩
      | some rate =>
        let result := ensureStored store ⟨p, rate⟩
        ⟨RunOutcome.success result.1, 1, true, result.2⟩
    else
      ⟨RunOutcome.missingApiKey, 1, false, store⟩

/-! ## Helper lemmas about the existence query -/

theorem findByPeriod_append (s t : List CpiObservation) (p : ObservationPeriod) :
    findByPeriod (s ++ t) p = findByPeriod s p ++ findByPeriod t p := by
  simp [findByPeriod, List.filter_append]

theorem findByPeriod_singleton_self (obs : CpiObservation) :
    findByPeriod [obs] obs.period = [obs] := by
  simp [findByPeriod]

theorem findByPeriod_singleton_ne (obs : CpiObservation) (p : ObservationPeriod)
    (h : obs.period ≠ p) : findByPeriod [obs] p = [] := by
  simp [findByPeriod, h]

/-! ## C3: no overwrite when the period is already present -/

/-- C3: if the store already has one or more rows for the observation's
period, `ensureStored` returns `AlreadyPresent` and the store — any rate
whatsoever in the incoming observation — is left exactly as it was. -/
theorem ensureStored_alreadyPresent_frame (store : List CpiObservation)
    (obs : CpiObservation) (h : 0 < (findByPeriod store obs.period).length) :
    (ensureStored store obs).1 = InsertOutcome.AlreadyPresent ∧
      (ensureStored store obs).2 = store := by
  unfold ensureStored
  rw [if_pos h]
  exact ⟨rfl, rfl⟩

/-- Witness for `ensureStored_alreadyPresent_frame`: a store holding the
period with rate 257, probed with a different rate 999. -/
theorem ensureStored_alreadyPresent_frame_witness :
    (ensureStored [⟨⟨2019, 12⟩, 257⟩] ⟨⟨2019, 12⟩, 999⟩).1 =
        InsertOutcome.AlreadyPresent ∧
      (ensureStored [⟨⟨2019, 12⟩, 257⟩] ⟨⟨2019, 12⟩, 999⟩).2 =
        [⟨⟨2019, 12⟩, 257⟩] :=
  ensureStored_alreadyPresent_frame [⟨⟨2019, 12⟩, 257⟩] ⟨⟨2019, 12⟩, 999⟩
    (by decide)

/-! ## C1: idempotence of the ingestion guard -/

/-- C1 (counterexample to the claim as stated): the claim quantifies over
every starting store, but on a store that already holds a row for the
observation's period the first call answers `AlreadyPresent`, not
`Inserted`. -/
theorem ensureStored_first_call_not_inserted :
    (ensureStored [⟨⟨2019, 12⟩, 258⟩] ⟨⟨2019, 12⟩, 258⟩).1 ≠
      InsertOutcome.Inserted := by
  decide

/-- C1 (amended): for every store with no existing row for the
observation's period, calling `ensureStored` twice with the same
observation yields `Inserted` then `AlreadyPresent`, and afterwards the
store holds exactly one row for that period. -/
theorem ensureStored_idempotent (store : List CpiObservation)
    (obs : CpiObservation) (h : findByPeriod store obs.period = []) :
    (ensureStored store obs).1 = InsertOutcome.Inserted ∧
      (ensureStored (ensureStored store obs).2 obs).1 =
        InsertOutcome.AlreadyPresent ∧
      (findByPeriod (ensureStored (ensureStored store obs).2 obs).2
        obs.period).length = 1 := by
  have h1 : ensureStored store obs = (InsertOutcome.Inserted, store ++ [obs]) := by
    unfold ensureStored
    rw [h]
    rfl
  have hfind : findByPeriod (store ++ [obs]) obs.period = [obs] := by
    rw [findByPeriod_append, h, findByPeriod_singleton_self]
    rfl
  have h2 : ensureStored (store ++ [obs]) obs =
      (InsertOutcome.AlreadyPresent, store ++ [obs]) := by
    unfold ensureStored
    rw [hfind]
    rfl
  rw [h1]
  simp [h2, hfind]

/-- Witness for `ensureStored_idempotent`: the empty store and the
observation (2019, 12, 258). -/
theorem ensureStored_idempotent_witness :
    (ensureStored [] ⟨⟨2019, 12⟩, 258⟩).1 = InsertOutcome.Inserted ∧
      (ensureStored (ensureStored [] ⟨⟨2019, 12⟩, 258⟩).2 ⟨⟨2019, 12⟩, 258⟩).1 =
        InsertOutcome.AlreadyPresent ∧
      (findByPeriod
        (ensureStored (ensureStored [] ⟨⟨2019, 12⟩, 258⟩).2 ⟨⟨2019, 12⟩, 258⟩).2
        (⟨2019, 12⟩ : ObservationPeriod)).length = 1 :=
  ensureStored_idempotent [] ⟨⟨2019, 12⟩, 258⟩ (by decide)

/-! ## C2: the check-then-insert preserves at-most-one-row-per-period -/

/-- C2: starting from any store with at most one row per (year, month),
the store after `ensureStored` still has at most one row per period; the
check-then-insert logic alone guarantees this. -/
theorem ensureStored_preserves_uniqueness (store : List CpiObservation)
    (obs : CpiObservation) (h : atMostOnePerPeriod store) :
    atMostOnePerPeriod (ensureStored store obs).2 := by
  unfold ensureStored
  by_cases hc : (findByPeriod store obs.period).length > 0
  · rw [if_pos hc]
    exact h
  · rw [if_neg hc]
    intro p
    rw [findByPeriod_append]
    by_cases hp : obs.period = p
    · have hnil : findByPeriod store p = [] := by
        rw [← hp]
        cases hfp : findByPeriod store obs.period with
        | nil => rfl
        | cons a t => rw [hfp] at hc; simp at hc
      rw [hnil, ← hp, findByPeriod_singleton_self]
      simp
    · rw [findByPeriod_singleton_ne obs p hp]
      simpa using h p

/-- Witness for `ensureStored_preserves_uniqueness`: a one-row store with a
distinct period, receiving the observation (2020, 1, 260). -/
theorem ensureStored_preserves_uniqueness_witness :
    atMostOnePerPeriod [⟨⟨2019, 12⟩, 258⟩] ∧
      atMostOnePerPeriod
        (ensureStored [⟨⟨2019, 12⟩, 258⟩] ⟨⟨2020, 1⟩, 260⟩).2 := by
  have hbase : atMostOnePerPeriod [⟨⟨2019, 12⟩, 258⟩] := by
    intro p
    by_cases hp : (⟨⟨2019, 12⟩, 258⟩ : CpiObservation).period = p
    · rw [← hp, findByPeriod_singleton_self]
      simp
    · rw [findByPeriod_singleton_ne _ _ hp]
      simp
  exact ⟨hbase, ensureStored_preserves_uniqueness _ _ hbase⟩

/-! ## C4: the default period is the previous calendar month -/

/-- C4: with no override, for every wall-clock value (calendar months are
1..12) the resolved period is the month immediately preceding `now`'s:
(year - 1, December) in January, (year, month - 1) otherwise. -/
theorem resolve_default_previous_month (now : Now) (h1 : 1 ≤ now.month)
    (h2 : now.month ≤ 12) :
    resolvePeriod [] now =
      ResolveResult.ok
        (if now.month = 1 then ⟨now.year - 1, 12⟩ else ⟨now.year, now.month - 1⟩)
        false := by
  unfold resolvePeriod defaultPeriod lastMonth lastMonthYear
  by_cases hm : now.month = 1
  · have : ¬ now.month > 1 := by omega
    simp [hm, this]
  · have : now.month > 1 := by omega
    simp [hm, this]

/-- Witness for `resolve_default_previous_month`: now = January 2020
resolves to December 2019. -/
theorem resolve_default_previous_month_witness :
    resolvePeriod [] ⟨2020, 1⟩ =
      ResolveResult.ok
        (if (1 : Int) = 1 then ⟨2020 - 1, 12⟩ else ⟨2020, 1 - 1⟩) false :=
  resolve_default_previous_month ⟨2020, 1⟩ (by decide) (by decide)

/-! ## C5: a strictly future override is rejected before any effect -/

/-- C5: for every override period strictly later (chronologically on
(year, month), months 1..12) than the default previous-month period, the
run stops with the future-date error, exit code 1, with no fetch performed
and the store untouched. -/
theorem future_override_rejected (overrideYear overrideMonth : Int)
    (rest : List Int) (now : Now) (apiKeyPresent : Bool)
    (fetch : Int → List (ObservationPeriod × Rat)) (store : List CpiObservation)
    (hm1 : 1 ≤ overrideMonth) (hm2 : overrideMonth ≤ 12)
    (hlater : (defaultPeriod now).before ⟨overrideYear, overrideMonth⟩) :
    runMain (overrideYear :: overrideMonth :: rest) now apiKeyPresent fetch
        store =
      ⟨RunOutcome.futureDate, 1, false, store⟩ := by
  have hres : resolvePeriod (overrideYear :: overrideMonth :: rest) now =
      ResolveResult.futureDateError := by
    simp only [resolvePeriod]
    rw [if_pos hlater]
  unfold runMain
  rw [hres]

/-- Witness for `future_override_rejected`: override January 2021 with
now = June 2020 (default period May 2020). -/
theorem future_override_rejected_witness :
    runMain [2021, 1] ⟨2020, 6⟩ true (fun _ => []) [⟨⟨2019, 12⟩, 258⟩] =
      ⟨RunOutcome.futureDate, 1, false, [⟨⟨2019, 12⟩, 258⟩]⟩ :=
  future_override_rejected 2021 1 [] ⟨2020, 6⟩ true (fun _ => [])
    [⟨⟨2019, 12⟩, 258⟩] (by decide) (by decide) (by decide)

/-! ## C10: an override equal to the default period is accepted -/

/-- C10: the rejection comparison is strict, so an override exactly equal
to the default previous-month period passes validation and the run
proceeds with that override. -/
theorem equal_override_accepted (overrideYear overrideMonth : Int)
    (rest : List Int) (now : Now)
    (hy : overrideYear = lastMonthYear now) (hm : overrideMonth = lastMonth now) :
    resolvePeriod (overrideYear :: overrideMonth :: rest) now =
      ResolveResult.ok ⟨overrideYear, overrideMonth⟩ true := by
  subst hy hm
  simp only [resolvePeriod]
  rw [if_neg]
  unfold defaultPeriod ObservationPeriod.before
  simp

/-- Witness for `equal_override_accepted`: now = June 2020, override
May 2020 (exactly the default previous month). -/
theorem equal_override_accepted_witness :
    resolvePeriod [2020, 5] ⟨2020, 6⟩ =
      ResolveResult.ok ⟨2020, 5⟩ true :=
  equal_override_accepted 2020 5 [] ⟨2020, 6⟩ (by decide) (by decide)

/-! ## C9: behavior at other argument counts -/

/-- C9 (counterexample to the claim as stated): with three positional
arguments the program does not fall back to the default period — the
`len(sys.argv) > 2` test is true, so the first two arguments are used as
the override.  With now = June 2020 and arguments (2019, 1, 99), the
resolved period is (2019, 1), not the default (2020, 5). -/
theorem three_args_not_default :
    resolvePeriod [2019, 1, 99] ⟨2020, 6⟩ ≠ resolvePeriod [] ⟨2020, 6⟩ := by
  decide

/-- C9 (amended): with exactly one positional argument the program behaves
as if no override were given, while with three or more arguments it uses
the first two as the override, ignoring the rest. -/
theorem resolve_arg_counts (args : List Int) (now : Now) :
    (args.length = 1 → resolvePeriod args now = resolvePeriod [] now) ∧
      (3 ≤ args.length →
        resolvePeriod args now = resolvePeriod (args.take 2) now) := by
  match args with
  | [] => exact ⟨fun h => by simp at h, fun h => by simp at h⟩
  | [a] => exact ⟨fun _ => rfl, fun h => by simp at h⟩
  | a :: b :: t => exact ⟨fun h => by simp at h, fun _ => rfl⟩

/-- Witness for `resolve_arg_counts`: one stray argument resolves like no
arguments; (2019, 1, 99) resolves like (2019, 1). -/
theorem resolve_arg_counts_witness :
    resolvePeriod [7] ⟨2020, 6⟩ = resolvePeriod [] ⟨2020, 6⟩ ∧
      resolvePeriod [2019, 1, 99] ⟨2020, 6⟩ =
        resolvePeriod (List.take 2 [2019, 1, 99]) ⟨2020, 6⟩ :=
  ⟨(resolve_arg_counts [7] ⟨2020, 6⟩).1 (by decide),
    (resolve_arg_counts [2019, 1, 99] ⟨2020, 6⟩).2 (by decide)⟩

/-! ## C6: the month filter -/

theorem lookupPeriod_eq_none_iff (series : List (ObservationPeriod × Rat))
    (p : ObservationPeriod) :
    lookupPeriod series p = none ↔ ∀ e ∈ series, e.1 ≠ p := by
  unfold lookupPeriod
  simp [List.find?_eq_none]

theorem lookupPeriod_of_mem (series : List (ObservationPeriod × Rat))
    (p : ObservationPeriod) (v : Rat)
    (hnd : (series.map Prod.fst).Nodup) (hmem : (p, v) ∈ series) :
    lookupPeriod series p = some v := by
  induction series with
  | nil => cases hmem
  | cons e t ih =>
    rw [List.map_cons, List.nodup_cons] at hnd
    rcases List.mem_cons.mp hmem with h | h
    · subst h
      unfold lookupPeriod
      simp [List.find?_cons]
    · have hne : e.1 ≠ p := by
        intro he
        exact hnd.1 (he ▸ List.mem_map_of_mem Prod.fst h)
      unfold lookupPeriod
      rw [List.find?_cons_of_neg]
      · exact ih hnd.2 h
      · simp [hne]

/-- C6: `extract` answers `observationNotFound` exactly when the requested
period is absent from the fetched series, and returns the exact stored
value when the period is present (the series maps each period at most
once). -/
theorem extract_month_filter (series : List (ObservationPeriod × Rat))
    (p : ObservationPeriod) (hnd : (series.map Prod.fst).Nodup) :
    (extract series p = ExtractResult.observationNotFound ↔
        p ∉ series.map Prod.fst) ∧
      ∀ v, (p, v) ∈ series → extract series p = ExtractResult.value v := by
  constructor
  · have hiff : lookupPeriod series p = none ↔ p ∉ series.map Prod.fst := by
      rw [lookupPeriod_eq_none_iff]
      constructor
      · intro h hmem
        rcases List.mem_map.mp hmem with ⟨e, he, hfst⟩
        exact h e he hfst
      · intro h e he hfst
        exact h (hfst ▸ List.mem_map_of_mem Prod.fst he)
    rw [← hiff]
    unfold extract
    cases hl : lookupPeriod series p with
    | none => simp
    | some v => simp
  · intro v hv
    unfold extract
    rw [lookupPeriod_of_mem series p v hnd hv]

/-- Witness for `extract_month_filter`: the series
{(2019, 11) ↦ 257.2, (2019, 12) ↦ 258}, probed at (2019, 12). -/
theorem extract_month_filter_witness :
    (extract [(⟨2019, 11⟩, 257.2), (⟨2019, 12⟩, 258)] ⟨2019, 12⟩ =
          ExtractResult.observationNotFound ↔
        (⟨2019, 12⟩ : ObservationPeriod) ∉
          ([(⟨2019, 11⟩, 257.2), (⟨2019, 12⟩, 258)] :
            List (ObservationPeriod × Rat)).map Prod.fst) ∧
      ∀ v : Rat,
        ((⟨2019, 12⟩ : ObservationPeriod), v) ∈
            ([(⟨2019, 11⟩, 257.2), (⟨2019, 12⟩, 258)] :
              List (ObservationPeriod × Rat)) →
          extract [(⟨2019, 11⟩, 257.2), (⟨2019, 12⟩, 258)] ⟨2019, 12⟩ =
            ExtractResult.value v :=
  extract_month_filter [(⟨2019, 11⟩, 257.2), (⟨2019, 12⟩, 258)] ⟨2019, 12⟩
    (by decide)

/-! ## C7: the history report -/

theorem period_eq_of_year_month (p q : ObservationPeriod) (hy : p.year = q.year)
    (hm : p.month = q.month) : p = q := by
  cases p
  cases q
  simp_all

theorem atMostOnePerPeriod_iff_pairwise (store : List CpiObservation) :
    atMostOnePerPeriod store ↔
      List.Pairwise (fun a b => a.period ≠ b.period) store := by
  induction store with
  | nil =>
    simp [List.Pairwise.nil]
    intro p
    simp [findByPeriod]
  | cons a t ih =>
    constructor
    · intro h
      rw [List.pairwise_cons]
      refine ⟨fun b hb hper => ?_, ih.mp fun p => ?_⟩
      · have h1 := h a.period
        have hc : findByPeriod (a :: t) a.period =
            a :: findByPeriod t a.period := by
          simp [findByPeriod, List.filter_cons]
        have hbmem : b ∈ findByPeriod t a.period := by
          simp only [findByPeriod, List.mem_filter]
          exact ⟨hb, by simp [hper]⟩
        have hpos : 0 < (findByPeriod t a.period).length :=
          List.length_pos.mpr (List.ne_nil_of_mem hbmem)
        rw [hc, List.length_cons] at h1
        omega
      · have h1 := h p
        have hle : (findByPeriod t p).length ≤ (findByPeriod (a :: t) p).length := by
          simp only [findByPeriod, List.filter_cons]
          split
          · rw [List.length_cons]
            omega
          · exact Nat.le_refl _
        omega
    · intro h
      rw [List.pairwise_cons] at h
      intro p
      by_cases hp : a.period = p
      · have hnil : findByPeriod t p = [] := by
          rw [findByPeriod, List.filter_eq_nil_iff]
          intro b hb
          simp only [decide_eq_true_eq]
          intro hbp
          exact h.1 b hb (by rw [hp, ← hbp])
        have hc : findByPeriod (a :: t) p = a :: findByPeriod t p := by
          simp [findByPeriod, List.filter_cons, hp]
        rw [hc, hnil]
        simp
      · have heq : findByPeriod (a :: t) p = findByPeriod t p := by
          simp [findByPeriod, List.filter_cons, hp]
        rw [heq]
        exact ih.mpr h.2 p

theorem before_of_rowGe_of_ne (a b : CpiObservation) (hge : rowGe a b)
    (hne : a.period ≠ b.period) : b.period.before a.period := by
  simp only [rowGe] at hge
  simp only [ObservationPeriod.before]
  rcases hge with h | ⟨hy, hm⟩
  · exact Or.inl h
  · rcases lt_or_eq_of_le hm with h | h
    · exact Or.inr ⟨hy, h⟩
    · exact absurd (period_eq_of_year_month a.period b.period hy.symm h.symm) hne

/-- C7 (counterexample to the claim as stated): the claim quantifies over
every store contents, but the table has no uniqueness constraint, and on a
store holding two rows for the same period the reported history is not
strictly descending — the two equal periods tie. -/
theorem recent_not_strict_on_duplicate_periods :
    ¬ List.Pairwise (fun a b : CpiObservation => b.period.before a.period)
        (recent [⟨⟨2019, 12⟩, 1⟩, ⟨⟨2019, 12⟩, 2⟩] 12) := by
  decide

/-- C7 (amended): for every store satisfying the at-most-one-row-per-period
invariant, `recent store 12` returns at most 12 rows, ordered strictly
descending chronologically (most recent first); `recent` is a pure read of
the store. -/
theorem recent_sorted_strict (store : List CpiObservation)
    (h : atMostOnePerPeriod store) :
    (recent store 12).length ≤ 12 ∧
      List.Pairwise (fun a b => b.period.before a.period) (recent store 12) := by
  constructor
  · unfold recent
    rw [List.length_take]
    omega
  · have hperm : List.Perm (List.insertionSort rowGe store) store :=
      List.perm_insertionSort rowGe store
    have hsorted : List.Pairwise rowGe (List.insertionSort rowGe store) :=
      List.sorted_insertionSort rowGe store
    have hmost : atMostOnePerPeriod (List.insertionSort rowGe store) := by
      intro p
      have hlen := (hperm.filter (fun row => decide (row.period = p))).length_eq
      simp only [findByPeriod]
      rw [hlen]
      exact h p
    have hne : List.Pairwise (fun a b : CpiObservation => a.period ≠ b.period)
        (List.insertionSort rowGe store) :=
      (atMostOnePerPeriod_iff_pairwise _).mp hmost
    have hstrict : List.Pairwise
        (fun a b : CpiObservation => b.period.before a.period)
        (List.insertionSort rowGe store) :=
      (hsorted.and hne).imp fun hab => before_of_rowGe_of_ne _ _ hab.1 hab.2
    exact hstrict.sublist (List.take_sublist 12 _)

/-- Witness for `recent_sorted_strict`: a two-row store with distinct
periods, listed most recent first. -/
theorem recent_sorted_strict_witness :
    atMostOnePerPeriod [⟨⟨2019, 11⟩, 257.2⟩, ⟨⟨2019, 12⟩, 258⟩] ∧
      ((recent [⟨⟨2019, 11⟩, 257.2⟩, ⟨⟨2019, 12⟩, 258⟩] 12).length ≤ 12 ∧
        List.Pairwise (fun a b => b.period.before a.period)
          (recent [⟨⟨2019, 11⟩, 257.2⟩, ⟨⟨2019, 12⟩, 258⟩] 12)) := by
  have hmost : atMostOnePerPeriod [⟨⟨2019, 11⟩, 257.2⟩, ⟨⟨2019, 12⟩, 258⟩] :=
    (atMostOnePerPeriod_iff_pairwise _).mpr (by decide)
  exact ⟨hmost, recent_sorted_strict _ hmost⟩

/-! ## C8: exit code on the success path -/

/-- C8: whenever a run completes normally — the period resolved, the value
extracted, an ingestion outcome reached, the history reported — this
variant of the script still terminates with exit code 1, not 0, because of
the unconditional `sys.exit(1)` on its last line. -/
theorem success_exit_code_one (args : List Int) (now : Now)
    (apiKeyPresent : Bool) (fetch : Int → List (ObservationPeriod × Rat))
    (store : List CpiObservation) (ingestion : InsertOutcome)
    (h : (runMain args now apiKeyPresent fetch store).outcome =
      RunOutcome.success ingestion) :
    (runMain args now apiKeyPresent fetch store).exitCode = 1 := by
  unfold runMain
  cases resolvePeriod args now with
  | futureDateError => rfl
  | ok p u =>
    cases apiKeyPresent with
    | false => simp
    | true =>
      simp only [if_true]
      split
      · rfl
      · rfl

/-- Witness for `success_exit_code_one`: a run over the empty store with
the fetched series holding May 2020, reaching the `Inserted` outcome. -/
theorem success_exit_code_one_witness :
    (runMain [] ⟨2020, 6⟩ true (fun _ => [(⟨2020, 5⟩, 256)]) []).outcome =
        RunOutcome.success InsertOutcome.Inserted ∧
      (runMain [] ⟨2020, 6⟩ true (fun _ => [(⟨2020, 5⟩, 256)]) []).exitCode = 1 :=
  ⟨by decide,
    success_exit_code_one [] ⟨2020, 6⟩ true (fun _ => [(⟨2020, 5⟩, 256)]) []
      InsertOutcome.Inserted (by decide)⟩

end EconCpiRates
